import Mathlib

/-!
Verification development for the `document_crop` repository (`src/index.ts`).

The `Scanner` class renders an interactive four-corner crop box over a loaded
image.  This file embeds the crop-box data model and the operations of
`src/index.ts` shallowly in Lean:

* JavaScript numbers are modelled as exact rationals (`ℚ`); the arithmetic the
  embedded code performs is `+ - * /`, `min`, `max`, `Math.floor` and exact
  `===` comparisons, all of which are rational-exact.  The one place the source
  uses `Math.sqrt` (the output-size computation of
  `#applyPerspectiveTransform`) is embedded over `ℝ` with `Real.sqrt`.
* Instance fields become record fields; each private method becomes a function
  from the record (plus the pointer coordinates it receives) to a new record.
* `#drawCropBox` only paints the overlay; it is modelled as incrementing a
  `redraws` counter so that "no redraw happened" is expressible.
-/

/-- A 2D point, the `Position` interface of `src/index.ts` (`{x, y}`). -/
structure Pos where
  x : ℚ
  y : ℚ
deriving DecidableEq

instance : Inhabited Pos := ⟨⟨0, 0⟩⟩

/-- The four crop-box corners, clockwise from top-left: the `#corners` array
of the `Scanner` class (always four entries in every code path that builds
it). -/
structure Quad where
  c0 : Pos
  c1 : Pos
  c2 : Pos
  c3 : Pos
deriving DecidableEq

/-- Indexing `#corners[i]`. -/
def Quad.nth (q : Quad) : Fin 4 → Pos
  | ⟨0, _⟩ => q.c0
  | ⟨1, _⟩ => q.c1
  | ⟨2, _⟩ => q.c2
  | ⟨3, _⟩ => q.c3

/-- Replacing `#corners[i]` by a new position (the candidate array `points`
built in `#afterTouchMove`, and the in-place corner assignment there). -/
def Quad.set (q : Quad) : Fin 4 → Pos → Quad
  | ⟨0, _⟩, p => { q with c0 := p }
  | ⟨1, _⟩, p => { q with c1 := p }
  | ⟨2, _⟩, p => { q with c2 := p }
  | ⟨3, _⟩, p => { q with c3 := p }

/-- Pointwise image of the four corners (the `for` loop of `#moveCropBox`). -/
def Quad.mapPos (f : Pos → Pos) (q : Quad) : Quad :=
  ⟨f q.c0, f q.c1, f q.c2, f q.c3⟩

/-- The corners as a list, in index order. -/
def Quad.toList (q : Quad) : List Pos :=
  [q.c0, q.c1, q.c2, q.c3]

/-- View of a JS array of points as a `Quad` (used to connect the list
produced by `#initializeCorners` with the interaction layer, which always
receives four corners). -/
def quadOfList (l : List Pos) : Quad :=
  ⟨l.getD 0 ⟨0, 0⟩, l.getD 1 ⟨0, 0⟩, l.getD 2 ⟨0, 0⟩, l.getD 3 ⟨0, 0⟩⟩

/-- JavaScript truthiness of an optional number: `undefined` and `0` are
falsy.  The constructor stores `width`/`height`/`maxWidth`/`maxHeight` only
behind `if (value)` guards, and `#initializeCanvasDimensions` branches on the
same truthiness. -/
def truthyQ : Option ℚ → Bool
  | none => false
  | some v => v != 0

/-- `Math.floor` on the rational model of a JS number. -/
def qfloor (q : ℚ) : ℚ := (⌊q⌋ : ℚ)

/-- `#initializeCanvasDimensions` (src/index.ts:155-254): resolves the display
canvas size from the configured `width`/`height`/`maxWidth`/`maxHeight` fields
and the image's natural size.  Returns the display-space `(width, height)`
pair assigned to `canvas.width`/`canvas.height` before the device-pixel-ratio
scaling at the end of the method. -/
def initializeCanvasDimensions (width? height? maxWidth? maxHeight? : Option ℚ)
    (naturalWidth naturalHeight : ℚ) : ℚ × ℚ :=
  if truthyQ width? && !truthyQ height? then
    let w := width?.getD 0
    let y := qfloor (w / naturalWidth * naturalHeight)
    if truthyQ maxHeight? && decide (maxHeight?.getD 0 < y) then
      (qfloor (maxHeight?.getD 0 / naturalHeight * naturalWidth), maxHeight?.getD 0)
    else (w, y)
  else if truthyQ height? && !truthyQ width? then
    let h := height?.getD 0
    let x := qfloor (h / naturalHeight * naturalWidth)
    if truthyQ maxWidth? && decide (maxWidth?.getD 0 < x) then
      (maxWidth?.getD 0, qfloor (maxWidth?.getD 0 / naturalWidth * naturalHeight))
    else (x, h)
  else if truthyQ width? && truthyQ height? then
    (width?.getD 0, height?.getD 0)
  else
    (naturalWidth, naturalHeight)

/-- The `#canvasBorderPoints` rectangle built by every branch of
`#initializeCanvasDimensions`: the display canvas rectangle offset by the
`cornerRadius` padding. -/
def borderPointsOf (r w h : ℚ) : List Pos :=
  [⟨r, r⟩, ⟨w + r, r⟩, ⟨w + r, h + r⟩, ⟨r, h + r⟩]

/-- `#initializeCorners` (src/index.ts:263-290).  `canvasWidth`/`canvasHeight`
are the backing-store sizes (already multiplied by the device pixel ratio at
the end of `#initializeCanvasDimensions`), so `canvasWidth / dpr` is the
display size.  A supplied corner is percentage-space and is converted by
`(pct / 100) * displaySize + cornerRadius`; with no supplied corners the four
padded canvas corners are used. -/
def initializeCorners (canvasWidth canvasHeight dpr r : ℚ) :
    Option (List Pos) → List Pos
  | some ics =>
      ics.map fun c =>
        ⟨c.x / 100 * canvasWidth / dpr + r, c.y / 100 * canvasHeight / dpr + r⟩
  | none =>
      [⟨r, r⟩,
       ⟨canvasWidth / dpr + r, r⟩,
       ⟨canvasWidth / dpr + r, canvasHeight / dpr + r⟩,
       ⟨r, canvasHeight / dpr + r⟩]

/-- A display-space point lies in the padded bounding region spanned by
`borderPointsOf r w h` (the closed rectangle the `CanvasBoundary` polygon
bounds). -/
def withinBoundary (r w h : ℚ) (p : Pos) : Prop :=
  r ≤ p.x ∧ p.x ≤ w + r ∧ r ≤ p.y ∧ p.y ≤ h + r

/-- Constructor options of `Scanner` (the `ScannerOptions` interface), with
only the fields the embedded logic consumes.  `hasBackdropColor` and
`hasCropBoxColor` model the `"backdropColor" in options` / `"cropBoxColor" in
options` key-presence tests of the constructor. -/
structure ScannerOptions where
  width? : Option ℚ
  height? : Option ℚ
  maxWidth? : Option ℚ
  maxHeight? : Option ℚ
  hasBackdropColor : Bool
  hasCropBoxColor : Bool
  cornerRadius? : Option ℚ
  minCropBoxWidth? : Option ℚ
  minCropBoxHeight? : Option ℚ
  initialCorners? : Option (List Pos)
deriving DecidableEq

/-- The fields a successful construction stores (src/index.ts:83-112); the
dimension options are kept only when truthy, mirroring the `if (width)
this.#width = width` guards, and `minCropBoxWidth ?? 100` is the nullish
default. -/
structure Constructed where
  width? : Option ℚ
  height? : Option ℚ
  maxWidth? : Option ℚ
  maxHeight? : Option ℚ
  cornerRadius : ℚ
  minCropBoxWidth : ℚ
  minCropBoxHeight : ℚ
  initialCorners? : Option (List Pos)
  moveActive : Bool
  selectedCornerIndex : Option (Fin 4)
deriving DecidableEq

/-- The `Scanner` constructor (src/index.ts:51-153).  The three configuration
conflicts throw (here: return `Except.error`) before any DOM element is
created or appended — the element creation starts only at line 83, after all
three guards.  Any other combination produces an instance. -/
def construct (o : ScannerOptions) : Except String Constructed :=
  if o.hasBackdropColor && o.hasCropBoxColor then
    Except.error "Only one of backdropColor or cropBoxColor is to be set."
  else if truthyQ o.width? && truthyQ o.maxWidth? then
    Except.error "Only one of width or maxWidth is to be set."
  else if truthyQ o.height? && truthyQ o.maxHeight? then
    Except.error "Only one of height or maxHeight is to be set."
  else
    Except.ok
      { width? := if truthyQ o.width? then o.width? else none
        height? := if truthyQ o.height? then o.height? else none
        maxWidth? := if truthyQ o.maxWidth? then o.maxWidth? else none
        maxHeight? := if truthyQ o.maxHeight? then o.maxHeight? else none
        cornerRadius := o.cornerRadius?.getD 12
        minCropBoxWidth := o.minCropBoxWidth?.getD 100
        minCropBoxHeight := o.minCropBoxHeight?.getD 100
        initialCorners? := o.initialCorners?
        moveActive := false
        selectedCornerIndex := none }

/-- The per-load constants the interaction handlers read: `#cornerRadius`,
`#minCropBoxWidth`, `#minCropBoxHeight`, the overlay canvas size
(`canvas size + 2 * cornerRadius`, src/index.ts:257-258) and
`#canvasBorderPoints`. -/
structure Config where
  cornerRadius : ℚ
  minCropBoxWidth : ℚ
  minCropBoxHeight : ℚ
  overlayWidth : ℚ
  overlayHeight : ℚ
  canvasBorderPoints : List Pos
deriving DecidableEq

/-- The configuration a completed image load leaves behind, for a display
canvas of size `w × h`: overlay padded by `r` on every side, border polygon
`borderPointsOf r w h`. -/
def mkConfig (r w h minW minH : ℚ) : Config :=
  { cornerRadius := r
    minCropBoxWidth := minW
    minCropBoxHeight := minH
    overlayWidth := w + 2 * r
    overlayHeight := h + 2 * r
    canvasBorderPoints := borderPointsOf r w h }

/-- The `#move` field: whole-box drag flag plus last recorded pointer
position. -/
structure MoveState where
  active : Bool
  prevTouch : Pos
deriving DecidableEq

/-- The mutable interaction state of a `Scanner` instance after a load:
`#corners`, `#move`, `#selectedCornerIndex` (`none` models `-1`; the only
other values the code ever assigns are results of `#getSelectedCornerIndex`,
which are corner indices `0..3`), and a counter of `#drawCropBox` calls. -/
structure State where
  corners : Quad
  move : MoveState
  selectedCornerIndex : Option (Fin 4)
  redraws : Nat
deriving DecidableEq

/-- The clamp pattern `Math.max(lo, Math.min(v, hi))` used by `#moveCropBox`
and the corner-commit branch of `#afterTouchMove`. -/
def clampQ (lo hi v : ℚ) : ℚ := max lo (min v hi)

/-- One iteration of the `#isPointOnBorder` loop: the exact cross-product
collinearity test and bounding-box test for the segment from `b1` to `b2`. -/
def onSeg (p b1 b2 : Pos) : Bool :=
  decide ((p.y - b1.y) * (b2.x - b1.x) = (b2.y - b1.y) * (p.x - b1.x)) &&
  decide (min b1.x b2.x ≤ p.x) && decide (p.x ≤ max b1.x b2.x) &&
  decide (min b1.y b2.y ≤ p.y) && decide (p.y ≤ max b1.y b2.y)

/-- `#isPointOnBorder` (src/index.ts:417-434): does `p` lie on any edge of the
closed polygon `borderPoints` (consecutive points, wrapping around)? -/
def isPointOnBorder (p : Pos) (borderPoints : List Pos) : Bool :=
  (List.range borderPoints.length).any fun i =>
    onSeg p (borderPoints.getD i ⟨0, 0⟩)
      (borderPoints.getD ((i + 1) % borderPoints.length) ⟨0, 0⟩)

/-- `#cropBoxIsTooSmall` (src/index.ts:477-484): the four opposite-corner
straight-line projections against the minimum thresholds. -/
def cropBoxIsTooSmall (cfg : Config) (corners : Quad) : Bool :=
  decide (corners.c1.x - corners.c0.x < cfg.minCropBoxWidth) ||
  decide (corners.c2.x - corners.c3.x < cfg.minCropBoxWidth) ||
  decide (corners.c3.y - corners.c0.y < cfg.minCropBoxHeight) ||
  decide (corners.c2.y - corners.c1.y < cfg.minCropBoxHeight)

/-- The per-corner body of the translation loop in `#moveCropBox`
(src/index.ts:441-455): shift by the pointer delta and clamp each coordinate
into `[cornerRadius, overlaySize - cornerRadius]`. -/
def translateClamp (cfg : Config) (dx dy : ℚ) (p : Pos) : Pos :=
  ⟨clampQ cfg.cornerRadius (cfg.overlayWidth - cfg.cornerRadius) (p.x + dx),
   clampQ cfg.cornerRadius (cfg.overlayHeight - cfg.cornerRadius) (p.y + dy)⟩

/-- `#moveCropBox` (src/index.ts:436-475): translate all four corners by the
delta from the last recorded pointer position (clamped), reject the whole
translation if any translated corner lies on the border polygon, always
record the new pointer position, always redraw. -/
def moveCropBox (cfg : Config) (st : State) (touchX touchY : ℚ) : State :=
  let dx := touchX - st.move.prevTouch.x
  let dy := touchY - st.move.prevTouch.y
  let translated := Quad.mapPos (translateClamp cfg dx dy) st.corners
  let movable :=
    !(translated.toList.any fun p => isPointOnBorder p cfg.canvasBorderPoints)
  { corners := if movable then translated else st.corners
    move := { active := st.move.active, prevTouch := ⟨touchX, touchY⟩ }
    selectedCornerIndex := st.selectedCornerIndex
    redraws := st.redraws + 1 }

/-- `#afterTouchMove` (src/index.ts:501-532): box drag takes priority; a
selected corner is first validated via `#cropBoxIsTooSmall` on the raw
candidate set, then committed with each coordinate clamped into the padded
region, followed by a redraw.  A failed validation returns with nothing
changed. -/
def afterTouchMove (cfg : Config) (st : State) (touchX touchY : ℚ) : State :=
  if st.move.active then
    moveCropBox cfg st touchX touchY
  else
    match st.selectedCornerIndex with
    | none => st
    | some i =>
        let points := st.corners.set i ⟨touchX, touchY⟩
        if cropBoxIsTooSmall cfg points then st
        else
          { st with
            corners := st.corners.set i
              ⟨clampQ cfg.cornerRadius (cfg.overlayWidth - cfg.cornerRadius) touchX,
               clampQ cfg.cornerRadius (cfg.overlayHeight - cfg.cornerRadius) touchY⟩
            redraws := st.redraws + 1 }

/-- `#handleTouchEnd` (src/index.ts:534-537): clear both drag flags. -/
def afterTouchEnd (st : State) : State :=
  { st with move := { st.move with active := false }, selectedCornerIndex := none }

/-- One pointer event processed by the interaction controller.  The pointer
coordinates are arbitrary rationals.  The two pointer-down outcomes
over-approximate `#afterTouchStart`: its polygon hit test goes through the
external `CanvasRenderingContext2D.isPointInPath` API and its corner hit test
through `Math.sqrt`, so the guards are dropped (every behaviour of the source
is a behaviour of this relation; the corner states it can reach are a
superset).  `touchMove` and `touchEnd` are the exact embedded handlers. -/
inductive Step (cfg : Config) : State → State → Prop
  | startBoxDrag (st : State) (t : Pos) (h : st.move.active = false) :
      Step cfg st { st with move := { active := true, prevTouch := t } }
  | startCornerDrag (st : State) (i? : Option (Fin 4)) :
      Step cfg st { st with selectedCornerIndex := i? }
  | touchMove (st : State) (tx ty : ℚ) :
      Step cfg st (afterTouchMove cfg st tx ty)
  | touchEnd (st : State) :
      Step cfg st (afterTouchEnd st)

/-- States reachable from `s0` through pointer events. -/
def Reachable (cfg : Config) : State → State → Prop :=
  Relation.ReflTransGen (Step cfg)

/-- A corner lies in the padded bounding region (the exact range the clamps
of `#moveCropBox` and `#afterTouchMove` enforce). -/
def inRegion (cfg : Config) (p : Pos) : Prop :=
  cfg.cornerRadius ≤ p.x ∧ p.x ≤ cfg.overlayWidth - cfg.cornerRadius ∧
  cfg.cornerRadius ≤ p.y ∧ p.y ≤ cfg.overlayHeight - cfg.cornerRadius

/-- The CropBox invariant of the specification: all four corners inside the
padded bounding region, and the four opposite-corner projections at least the
minimum width/height (the negation of `#cropBoxIsTooSmall`). -/
def CropInv (cfg : Config) (q : Quad) : Prop :=
  inRegion cfg q.c0 ∧ inRegion cfg q.c1 ∧ inRegion cfg q.c2 ∧ inRegion cfg q.c3 ∧
  cfg.minCropBoxWidth ≤ q.c1.x - q.c0.x ∧
  cfg.minCropBoxWidth ≤ q.c2.x - q.c3.x ∧
  cfg.minCropBoxHeight ≤ q.c3.y - q.c0.y ∧
  cfg.minCropBoxHeight ≤ q.c2.y - q.c1.y

/-- A loaded (or loading) `Scanner` instance: the constructor-stored options
plus the per-load canvas state and the interaction state.  `canvasWidth` and
`canvasHeight` are the backing-store sizes (display size times `dpr`), as the
code leaves them at the end of `#initializeCanvasDimensions`. -/
structure Full where
  width? : Option ℚ
  height? : Option ℚ
  maxWidth? : Option ℚ
  maxHeight? : Option ℚ
  cornerRadius : ℚ
  minCropBoxWidth : ℚ
  minCropBoxHeight : ℚ
  dpr : ℚ
  initialCorners? : Option (List Pos)
  canvasWidth : ℚ
  canvasHeight : ℚ
  corners : List Pos
  move : MoveState
  selectedCornerIndex : Option (Fin 4)
  redraws : Nat
deriving DecidableEq

/-- The `onload` callback installed by `loadImg` (src/index.ts:621-626):
recompute the canvas dimensions, recompute the corners, draw the image and
the crop box.  It writes the dimension and corner fields only; `#move` and
`#selectedCornerIndex` are not touched anywhere in `loadImg` or the
callback. -/
def loadOnload (f : Full) (naturalWidth naturalHeight : ℚ) : Full :=
  let dims := initializeCanvasDimensions f.width? f.height? f.maxWidth? f.maxHeight?
    naturalWidth naturalHeight
  let canvasW := dims.1 * f.dpr
  let canvasH := dims.2 * f.dpr
  { f with
    canvasWidth := canvasW
    canvasHeight := canvasH
    corners := initializeCorners canvasW canvasH f.dpr f.cornerRadius f.initialCorners?
    redraws := f.redraws + 1 }

/-- The four output-producing public operations (src/index.ts:632-661).
`crop`, `getBlob` and `getFile` all call `#applyPerspectiveTransform`, which
reads the backing canvas and `#corners`, builds fresh `cv.Mat`s and a fresh
temporary canvas, and assigns no instance field; `getCanvas` returns the
canvas handle.  None of the four branches writes any field of the
instance. -/
inductive PublicOp
  | crop
  | getBlob
  | getFile
  | getCanvas
deriving DecidableEq

/-- State effect of a public output operation on the instance: every branch
of the source writes no instance field, so each branch returns the instance
unchanged. -/
def runPublicOp : PublicOp → Full → Full
  | .crop, f => f
  | .getBlob, f => f
  | .getFile, f => f
  | .getCanvas, f => f

/-- The six overlay-canvas event kinds wired in the constructor. -/
inductive EventKind
  | touchstart
  | touchmove
  | touchend
  | mousedown
  | mousemove
  | mouseup
deriving DecidableEq

/-- A JavaScript function value used as an event callback, compared by
reference identity (which is what `removeEventListener` matching uses).
`methodRef m` is the stable private-method reference `this.#handleX`;
`boundRef k m` is the fresh function object produced by the `k`-th
`this.#handleX.bind(this)` call of the constructor.  A bound copy is never
reference-equal to its method or to another bound copy. -/
inductive JsHandler
  | methodRef : Fin 5 → JsHandler
  | boundRef : Fin 6 → Fin 5 → JsHandler
deriving DecidableEq

/-- DOM `addEventListener`: appends the `(type, callback)` registration
unless that exact pair is already registered. -/
def addListener (ev : EventKind) (h : JsHandler) (ls : List (EventKind × JsHandler)) :
    List (EventKind × JsHandler) :=
  if (ev, h) ∈ ls then ls else ls ++ [(ev, h)]

/-- DOM `removeEventListener`: removes the registration whose `(type,
callback)` pair matches exactly; a pair that was never registered removes
nothing. -/
def removeListener (ev : EventKind) (h : JsHandler) (ls : List (EventKind × JsHandler)) :
    List (EventKind × JsHandler) :=
  ls.filter fun e => decide (e ≠ (ev, h))

/-- The six registrations of the constructor (src/index.ts:125-148).  Method
indices: 0 `#handleTouchStart`, 1 `#handleTouchMove`, 2 `#handleTouchEnd`,
3 `#handleMouseDown`, 4 `#handleMouseMove`; `touchend` and `mouseup` both
bind `#handleTouchEnd`, each via its own fresh `.bind(this)` copy. -/
def constructorListeners : List (EventKind × JsHandler) :=
  addListener .mouseup (.boundRef 5 2)
    (addListener .mousemove (.boundRef 4 4)
      (addListener .mousedown (.boundRef 3 3)
        (addListener .touchend (.boundRef 2 2)
          (addListener .touchmove (.boundRef 1 1)
            (addListener .touchstart (.boundRef 0 0) [])))))

/-- The six `removeEventListener` calls of `destroy` (src/index.ts:663-674),
each passing the raw private-method reference `this.#handleX` — not the
bound copy that was registered. -/
def destroyRemovals (ls : List (EventKind × JsHandler)) : List (EventKind × JsHandler) :=
  removeListener .mouseup (.methodRef 2)
    (removeListener .mousemove (.methodRef 4)
      (removeListener .mousedown (.methodRef 3)
        (removeListener .touchend (.methodRef 2)
          (removeListener .touchmove (.methodRef 1)
            (removeListener .touchstart (.methodRef 0) ls)))))

/-- Embedding of `(ℝ × ℝ)` display points into the Euclidean plane, to state
edge lengths through the genuine Euclidean metric. -/
def toE2 (p : ℝ × ℝ) : EuclideanSpace ℝ (Fin 2) := ![p.1, p.2]

/-- Euclidean length of the edge from `a` to `b` — the specification's
"length of an edge" (straight-line distance between two adjacent corners). -/
noncomputable def edgeLength (a b : ℝ × ℝ) : ℝ := dist (toE2 a) (toE2 b)

/-- The `dsize` computation of `#applyPerspectiveTransform`
(src/index.ts:550-567), exactly as written: width from the edge `p0 p1` and
the edge `p2 p3`, height from the edge `p1 p2` and the edge `p3 p0`, each via
`Math.sqrt` of the sum of squared coordinate differences, the larger of the
two, scaled by `window.devicePixelRatio`. -/
noncomputable def cvDsize (p0 p1 p2 p3 : ℝ × ℝ) (dpr : ℝ) : ℝ × ℝ :=
  (max (Real.sqrt ((p0.1 - p1.1) ^ 2 + (p0.2 - p1.2) ^ 2))
       (Real.sqrt ((p2.1 - p3.1) ^ 2 + (p2.2 - p3.2) ^ 2)) * dpr,
   max (Real.sqrt ((p1.1 - p2.1) ^ 2 + (p1.2 - p2.2) ^ 2))
       (Real.sqrt ((p3.1 - p0.1) ^ 2 + (p3.2 - p0.2) ^ 2)) * dpr)

/-- The flat `CV_32FC2` destination array handed to `cv.matFromArray`
(src/index.ts:583-592), exactly as written in the source. -/
def dstTriFlat (w h : ℝ) : List ℝ := [0, 0, w, 0, w, h, 0, h]

/-- Grouping of a flat `CV_32FC2` buffer into 2D points, as OpenCV interprets
it: consecutive pairs. -/
def pairs2 : List ℝ → List (ℝ × ℝ)
  | a :: b :: rest => (a, b) :: pairs2 rest
  | _ => []

/-- Translation of a point by a pointer delta. -/
def shiftPos (dx dy : ℚ) (p : Pos) : Pos := ⟨p.x + dx, p.y + dy⟩

/-- A point strictly inside the padded bounding region (in the open
rectangle bounded by the `CanvasBoundary` polygon, touching no edge). -/
def strictlyInside (r w h : ℚ) (p : Pos) : Prop :=
  r < p.x ∧ p.x < w + r ∧ r < p.y ∧ p.y < h + r

instance (r w h : ℚ) (p : Pos) : Decidable (strictlyInside r w h p) := by
  unfold strictlyInside; infer_instance

instance (r w h : ℚ) (p : Pos) : Decidable (withinBoundary r w h p) := by
  unfold withinBoundary; infer_instance

instance (cfg : Config) (p : Pos) : Decidable (inRegion cfg p) := by
  unfold inRegion; infer_instance

instance (cfg : Config) (q : Quad) : Decidable (CropInv cfg q) := by
  unfold CropInv; infer_instance

/-- Example interaction configuration: a 400×300 display canvas with the
default corner radius 12 and default minimum box size 100×100. -/
def exCfg : Config := mkConfig 12 400 300 100 100

/-- Example post-load state for `exCfg`: the default full-canvas crop box,
idle interaction state. -/
def exState : State :=
  { corners := ⟨⟨12, 12⟩, ⟨412, 12⟩, ⟨412, 312⟩, ⟨12, 312⟩⟩
    move := { active := false, prevTouch := ⟨0, 0⟩ }
    selectedCornerIndex := none
    redraws := 0 }

/-- Example state with an active whole-box drag and a crop box strictly
inside the boundary. -/
def exStateDrag : State :=
  { corners := ⟨⟨20, 20⟩, ⟨200, 20⟩, ⟨200, 200⟩, ⟨20, 200⟩⟩
    move := { active := true, prevTouch := ⟨100, 100⟩ }
    selectedCornerIndex := none
    redraws := 0 }

/-- Example state with corner 1 (top-right) selected for dragging. -/
def exStateCorner : State :=
  { corners := ⟨⟨12, 12⟩, ⟨412, 12⟩, ⟨412, 312⟩, ⟨12, 312⟩⟩
    move := { active := false, prevTouch := ⟨0, 0⟩ }
    selectedCornerIndex := some 1
    redraws := 0 }

/-- Example instance before any load: no dimension options, all styling
defaults, device pixel ratio 1. -/
def exFullBare : Full :=
  { width? := none, height? := none, maxWidth? := none, maxHeight? := none
    cornerRadius := 12, minCropBoxWidth := 100, minCropBoxHeight := 100
    dpr := 1, initialCorners? := none
    canvasWidth := 0, canvasHeight := 0, corners := []
    move := { active := false, prevTouch := ⟨0, 0⟩ }
    selectedCornerIndex := none, redraws := 0 }

/-- Example instance captured mid-drag: a whole-box drag is active and a
corner index is recorded when `loadImg` fires. -/
def exFullDrag : Full :=
  { width? := some 400, height? := none, maxWidth? := none, maxHeight? := none
    cornerRadius := 12, minCropBoxWidth := 100, minCropBoxHeight := 100
    dpr := 1, initialCorners? := none
    canvasWidth := 400, canvasHeight := 300
    corners := [⟨50, 50⟩, ⟨350, 50⟩, ⟨350, 250⟩, ⟨50, 250⟩]
    move := { active := true, prevTouch := ⟨37, 41⟩ }
    selectedCornerIndex := some 2, redraws := 5 }

lemma clampQ_lb (lo hi v : ℚ) : lo ≤ clampQ lo hi v := le_max_left _ _

lemma clampQ_ub (lo hi v : ℚ) (h : lo ≤ hi) : clampQ lo hi v ≤ hi :=
  max_le h (min_le_right _ _)

lemma clampQ_le (lo hi v c : ℚ) (h1 : v ≤ c) (h2 : lo ≤ c) : clampQ lo hi v ≤ c :=
  max_le h2 (le_trans (min_le_left _ _) h1)

lemma clampQ_ge (lo hi v c : ℚ) (h1 : c ≤ v) (h2 : c ≤ hi) : c ≤ clampQ lo hi v :=
  le_trans (le_min h1 h2) (le_max_right _ _)

lemma clampQ_eq_self (lo hi v : ℚ) (h1 : lo ≤ v) (h2 : v ≤ hi) : clampQ lo hi v = v := by
  unfold clampQ
  rw [min_eq_left h2, max_eq_right h1]

lemma clampQ_eq_of_strict (lo hi v : ℚ) (h1 : lo < clampQ lo hi v)
    (h2 : clampQ lo hi v < hi) : clampQ lo hi v = v := by
  unfold clampQ at *
  rcases le_total v hi with hv2 | hv2
  · rcases le_total lo v with hv | hv
    · rw [min_eq_left hv2, max_eq_right hv]
    · rw [min_eq_left hv2, max_eq_left hv] at h1
      exact absurd h1 (lt_irrefl _)
  · rw [min_eq_right hv2] at h2
    exact absurd (lt_of_le_of_lt (le_max_right lo hi) h2) (lt_irrefl _)

lemma isPointOnBorder_quad (p a b c d : Pos) :
    isPointOnBorder p [a, b, c, d] =
      (onSeg p a b || (onSeg p b c || (onSeg p c d || onSeg p d a))) := by
  simp [isPointOnBorder, List.range_succ]

lemma onSeg_mem_x (p b1 b2 : Pos) (h : onSeg p b1 b2 = true) :
    min b1.x b2.x ≤ p.x ∧ p.x ≤ max b1.x b2.x := by
  simp only [onSeg, Bool.and_eq_true, decide_eq_true_eq] at h
  exact ⟨h.1.1.1.2, h.1.1.2⟩

lemma onSeg_mem_y (p b1 b2 : Pos) (h : onSeg p b1 b2 = true) :
    min b1.y b2.y ≤ p.y ∧ p.y ≤ max b1.y b2.y := by
  simp only [onSeg, Bool.and_eq_true, decide_eq_true_eq] at h
  exact ⟨h.1.2, h.2⟩

lemma onBorder_mem (r w h : ℚ) (hw : 0 ≤ w) (hh : 0 ≤ h) (p : Pos)
    (hb : isPointOnBorder p (borderPointsOf r w h) = true) :
    r ≤ p.x ∧ p.x ≤ w + r ∧ r ≤ p.y ∧ p.y ≤ h + r := by
  rw [borderPointsOf, isPointOnBorder_quad] at hb
  have hrw : r ≤ w + r := by linarith
  have hrh : r ≤ h + r := by linarith
  rcases Bool.or_eq_true_iff.mp hb with h1 | hb
  · have hx := onSeg_mem_x _ _ _ h1
    have hy := onSeg_mem_y _ _ _ h1
    simp only [min_eq_left hrw, max_eq_right hrw, min_self, max_self] at hx hy
    exact ⟨hx.1, hx.2, hy.1, le_trans hy.2 hrh⟩
  rcases Bool.or_eq_true_iff.mp hb with h1 | hb
  · have hx := onSeg_mem_x _ _ _ h1
    have hy := onSeg_mem_y _ _ _ h1
    simp only [min_eq_left hrh, max_eq_right hrh, min_self, max_self] at hx hy
    exact ⟨le_trans hrw hx.1, hx.2, hy.1, hy.2⟩
  rcases Bool.or_eq_true_iff.mp hb with h1 | h1
  · have hx := onSeg_mem_x _ _ _ h1
    have hy := onSeg_mem_y _ _ _ h1
    rw [min_comm, max_comm] at hx
    simp only [min_eq_left hrw, max_eq_right hrw, min_self, max_self] at hx hy
    exact ⟨hx.1, hx.2, le_trans hrh hy.1, hy.2⟩
  · have hx := onSeg_mem_x _ _ _ h1
    have hy := onSeg_mem_y _ _ _ h1
    rw [min_comm, max_comm] at hy
    simp only [min_eq_left hrh, max_eq_right hrh, min_self, max_self] at hx hy
    exact ⟨hx.1, le_trans hx.2 hrw, hy.1, hy.2⟩

lemma onBorder_of_edge (r w h : ℚ) (hw : 0 ≤ w) (hh : 0 ≤ h) (p : Pos)
    (hx1 : r ≤ p.x) (hx2 : p.x ≤ w + r) (hy1 : r ≤ p.y) (hy2 : p.y ≤ h + r)
    (hedge : p.x = r ∨ p.x = w + r ∨ p.y = r ∨ p.y = h + r) :
    isPointOnBorder p (borderPointsOf r w h) = true := by
  rw [borderPointsOf, isPointOnBorder_quad]
  have hrw : r ≤ w + r := by linarith
  have hrh : r ≤ h + r := by linarith
  rcases hedge with he | he | he | he
  · refine Bool.or_eq_true_iff.mpr (Or.inr (Bool.or_eq_true_iff.mpr (Or.inr
      (Bool.or_eq_true_iff.mpr (Or.inr ?_)))))
    simp only [onSeg, Bool.and_eq_true, decide_eq_true_eq]
    refine ⟨⟨⟨⟨by rw [he]; ring, ?_⟩, ?_⟩, ?_⟩, ?_⟩ <;>
      simp [he, min_self, max_self, min_eq_left hrh, max_eq_right hrh, min_comm,
        max_comm] <;>
      linarith
  · refine Bool.or_eq_true_iff.mpr (Or.inr (Bool.or_eq_true_iff.mpr (Or.inl ?_)))
    simp only [onSeg, Bool.and_eq_true, decide_eq_true_eq]
    refine ⟨⟨⟨⟨by rw [he]; ring, ?_⟩, ?_⟩, ?_⟩, ?_⟩ <;>
      simp [he, min_self, max_self, min_eq_left hrh, max_eq_right hrh] <;> linarith
  · refine Bool.or_eq_true_iff.mpr (Or.inl ?_)
    simp only [onSeg, Bool.and_eq_true, decide_eq_true_eq]
    refine ⟨⟨⟨⟨by rw [he]; ring, ?_⟩, ?_⟩, ?_⟩, ?_⟩ <;>
      simp [he, min_self, max_self, min_eq_left hrw, max_eq_right hrw] <;> linarith
  · refine Bool.or_eq_true_iff.mpr (Or.inr (Bool.or_eq_true_iff.mpr (Or.inr
      (Bool.or_eq_true_iff.mpr (Or.inl ?_)))))
    simp only [onSeg, Bool.and_eq_true, decide_eq_true_eq]
    refine ⟨⟨⟨⟨by rw [he]; ring, ?_⟩, ?_⟩, ?_⟩, ?_⟩ <;>
      simp [he, min_self, max_self, min_eq_left hrw, max_eq_right hrw, min_comm,
        max_comm] <;>
      linarith

lemma notOnBorder_of_strict (r w h : ℚ) (p : Pos)
    (hx1 : r < p.x) (hx2 : p.x < w + r) (hy1 : r < p.y) (hy2 : p.y < h + r) :
    isPointOnBorder p (borderPointsOf r w h) = false := by
  have hw : 0 < w := by linarith
  have hh : 0 < h := by linarith
  rw [borderPointsOf, isPointOnBorder_quad]
  simp only [Bool.or_eq_false_iff]
  refine ⟨?_, ?_, ?_, ?_⟩ <;>
    · simp only [onSeg, Bool.and_eq_false_iff, decide_eq_false_iff_not]
      left; left; left; left
      intro hcol
      nlinarith

lemma mkConfig_radius (r w h a b : ℚ) : (mkConfig r w h a b).cornerRadius = r := rfl

lemma mkConfig_minW (r w h a b : ℚ) : (mkConfig r w h a b).minCropBoxWidth = a := rfl

lemma mkConfig_minH (r w h a b : ℚ) : (mkConfig r w h a b).minCropBoxHeight = b := rfl

lemma mkConfig_ow (r w h a b : ℚ) : (mkConfig r w h a b).overlayWidth = w + 2 * r := rfl

lemma mkConfig_oh (r w h a b : ℚ) : (mkConfig r w h a b).overlayHeight = h + 2 * r := rfl

lemma mkConfig_bps (r w h a b : ℚ) :
    (mkConfig r w h a b).canvasBorderPoints = borderPointsOf r w h := rfl

lemma inRegion_mk (r w h a b : ℚ) (p : Pos) :
    inRegion (mkConfig r w h a b) p ↔
      (r ≤ p.x ∧ p.x ≤ w + r ∧ r ≤ p.y ∧ p.y ≤ h + r) := by
  unfold inRegion
  rw [mkConfig_radius, mkConfig_ow, mkConfig_oh]
  constructor <;> rintro ⟨h1, h2, h3, h4⟩ <;>
    exact ⟨h1, by linarith, h3, by linarith⟩

lemma tooSmall_false_iff (cfg : Config) (q : Quad) :
    cropBoxIsTooSmall cfg q = false ↔
      (cfg.minCropBoxWidth ≤ q.c1.x - q.c0.x ∧ cfg.minCropBoxWidth ≤ q.c2.x - q.c3.x ∧
       cfg.minCropBoxHeight ≤ q.c3.y - q.c0.y ∧ cfg.minCropBoxHeight ≤ q.c2.y - q.c1.y) := by
  simp only [cropBoxIsTooSmall, Bool.or_eq_false_iff, decide_eq_false_iff_not, not_lt]
  tauto

lemma cropInv_corner_commit (r w h a b : ℚ) (hr : 0 ≤ r) (hw : 0 ≤ w) (hh : 0 ≤ h)
    (q : Quad) (i : Fin 4) (tx ty : ℚ)
    (hq : CropInv (mkConfig r w h a b) q)
    (hsm : cropBoxIsTooSmall (mkConfig r w h a b) (q.set i ⟨tx, ty⟩) = false) :
    CropInv (mkConfig r w h a b)
      (q.set i ⟨clampQ r (w + r) tx, clampQ r (h + r) ty⟩) := by
  unfold CropInv at hq ⊢
  rw [inRegion_mk, inRegion_mk, inRegion_mk, inRegion_mk] at hq
  rw [mkConfig_minW, mkConfig_minH] at hq
  rw [tooSmall_false_iff, mkConfig_minW, mkConfig_minH] at hsm
  obtain ⟨⟨g0a, g0b, g0c, g0d⟩, ⟨g1a, g1b, g1c, g1d⟩, ⟨g2a, g2b, g2c, g2d⟩,
    ⟨g3a, g3b, g3c, g3d⟩, hA, hB, hC, hD⟩ := hq
  have hrw : r ≤ w + r := by linarith
  have hrh : r ≤ h + r := by linarith
  fin_cases i <;> simp only [Quad.set] at hsm ⊢ <;>
    obtain ⟨sA, sB, sC, sD⟩ := hsm <;>
    rw [inRegion_mk, inRegion_mk, inRegion_mk, inRegion_mk] <;>
    rw [mkConfig_minW, mkConfig_minH]
  · refine ⟨⟨clampQ_lb _ _ _, clampQ_ub _ _ _ hrw, clampQ_lb _ _ _, clampQ_ub _ _ _ hrh⟩,
      ⟨g1a, g1b, g1c, g1d⟩, ⟨g2a, g2b, g2c, g2d⟩, ⟨g3a, g3b, g3c, g3d⟩, ?_, hB, ?_, hD⟩
    · have := clampQ_le r (w + r) tx (q.c1.x - a) (by linarith) (by linarith)
      linarith
    · have := clampQ_le r (h + r) ty (q.c3.y - b) (by linarith) (by linarith)
      linarith
  · refine ⟨⟨g0a, g0b, g0c, g0d⟩,
      ⟨clampQ_lb _ _ _, clampQ_ub _ _ _ hrw, clampQ_lb _ _ _, clampQ_ub _ _ _ hrh⟩,
      ⟨g2a, g2b, g2c, g2d⟩, ⟨g3a, g3b, g3c, g3d⟩, ?_, hB, hC, ?_⟩
    · have := clampQ_ge r (w + r) tx (q.c0.x + a) (by linarith) (by linarith)
      linarith
    · have := clampQ_le r (h + r) ty (q.c2.y - b) (by linarith) (by linarith)
      linarith
  · refine ⟨⟨g0a, g0b, g0c, g0d⟩, ⟨g1a, g1b, g1c, g1d⟩,
      ⟨clampQ_lb _ _ _, clampQ_ub _ _ _ hrw, clampQ_lb _ _ _, clampQ_ub _ _ _ hrh⟩,
      ⟨g3a, g3b, g3c, g3d⟩, hA, ?_, hC, ?_⟩
    · have := clampQ_ge r (w + r) tx (q.c3.x + a) (by linarith) (by linarith)
      linarith
    · have := clampQ_ge r (h + r) ty (q.c1.y + b) (by linarith) (by linarith)
      linarith
  · refine ⟨⟨g0a, g0b, g0c, g0d⟩, ⟨g1a, g1b, g1c, g1d⟩, ⟨g2a, g2b, g2c, g2d⟩,
      ⟨clampQ_lb _ _ _, clampQ_ub _ _ _ hrw, clampQ_lb _ _ _, clampQ_ub _ _ _ hrh⟩,
      hA, ?_, ?_, hD⟩
    · have := clampQ_le r (w + r) tx (q.c2.x - a) (by linarith) (by linarith)
      linarith
    · have := clampQ_ge r (h + r) ty (q.c0.y + b) (by linarith) (by linarith)
      linarith

lemma translateClamp_strict (r w h a b : ℚ) (hr : 0 ≤ r) (hw : 0 ≤ w) (hh : 0 ≤ h)
    (dx dy : ℚ) (p : Pos)
    (hnb : isPointOnBorder (translateClamp (mkConfig r w h a b) dx dy p)
             (borderPointsOf r w h) = false) :
    translateClamp (mkConfig r w h a b) dx dy p = ⟨p.x + dx, p.y + dy⟩ ∧
      r < p.x + dx ∧ p.x + dx < w + r ∧ r < p.y + dy ∧ p.y + dy < h + r := by
  have hwr : w + 2 * r - r = w + r := by ring
  have hhr : h + 2 * r - r = h + r := by ring
  unfold translateClamp at hnb ⊢
  rw [mkConfig_radius, mkConfig_ow, mkConfig_oh, hwr, hhr] at hnb ⊢
  set u := clampQ r (w + r) (p.x + dx) with hu
  set v := clampQ r (h + r) (p.y + dy) with hv
  have hu1 : r ≤ u := clampQ_lb _ _ _
  have hu2 : u ≤ w + r := clampQ_ub _ _ _ (by linarith)
  have hv1 : r ≤ v := clampQ_lb _ _ _
  have hv2 : v ≤ h + r := clampQ_ub _ _ _ (by linarith)
  have hedge : ¬(u = r ∨ u = w + r ∨ v = r ∨ v = h + r) := by
    intro he
    rw [onBorder_of_edge r w h hw hh ⟨u, v⟩ hu1 hu2 hv1 hv2 he] at hnb
    exact Bool.true_eq_false.mp hnb
  push_neg at hedge
  obtain ⟨e1, e2, e3, e4⟩ := hedge
  have su1 : r < u := lt_of_le_of_ne hu1 (Ne.symm e1)
  have su2 : u < w + r := lt_of_le_of_ne hu2 e2
  have sv1 : r < v := lt_of_le_of_ne hv1 (Ne.symm e3)
  have sv2 : v < h + r := lt_of_le_of_ne hv2 e4
  have hequ : u = p.x + dx := clampQ_eq_of_strict _ _ _ su1 su2
  have heqv : v = p.y + dy := clampQ_eq_of_strict _ _ _ sv1 sv2
  rw [hequ] at su1 su2
  rw [heqv] at sv1 sv2
  exact ⟨by rw [hequ, heqv], su1, su2, sv1, sv2⟩

lemma cropInv_moveCropBox (r w h a b : ℚ) (hr : 0 ≤ r) (hw : 0 ≤ w) (hh : 0 ≤ h)
    (st : State) (hq : CropInv (mkConfig r w h a b) st.corners) (tx ty : ℚ) :
    CropInv (mkConfig r w h a b) (moveCropBox (mkConfig r w h a b) st tx ty).corners := by
  unfold moveCropBox
  set cfg := mkConfig r w h a b with hcfg
  set dx := tx - st.move.prevTouch.x with hdx
  set dy := ty - st.move.prevTouch.y with hdy
  set q := st.corners with hqdef
  by_cases hmov : (Quad.mapPos (translateClamp cfg dx dy) q).toList.any
      (fun p => isPointOnBorder p cfg.canvasBorderPoints) = true
  · simp only [hmov, Bool.not_true, Bool.false_eq_true, if_false]
    exact hq
  · rw [Bool.not_eq_true] at hmov
    simp only [hmov, Bool.not_false, if_true]
    simp only [Quad.toList, Quad.mapPos, List.any_cons, List.any_nil,
      Bool.or_eq_false_iff, hcfg, mkConfig_bps] at hmov
    obtain ⟨hm0, hm1, hm2, hm3, -⟩ := hmov
    obtain ⟨t0eq, t0a, t0b, t0c, t0d⟩ := translateClamp_strict r w h a b hr hw hh dx dy q.c0 hm0
    obtain ⟨t1eq, t1a, t1b, t1c, t1d⟩ := translateClamp_strict r w h a b hr hw hh dx dy q.c1 hm1
    obtain ⟨t2eq, t2a, t2b, t2c, t2d⟩ := translateClamp_strict r w h a b hr hw hh dx dy q.c2 hm2
    obtain ⟨t3eq, t3a, t3b, t3c, t3d⟩ := translateClamp_strict r w h a b hr hw hh dx dy q.c3 hm3
    unfold CropInv at hq ⊢
    rw [mkConfig_minW, mkConfig_minH] at hq ⊢
    rw [inRegion_mk, inRegion_mk, inRegion_mk, inRegion_mk] at hq
    obtain ⟨-, -, -, -, hA, hB, hC, hD⟩ := hq
    simp only [Quad.mapPos, t0eq, t1eq, t2eq, t3eq]
    rw [inRegion_mk, inRegion_mk, inRegion_mk, inRegion_mk]
    dsimp only
    refine ⟨⟨by linarith, by linarith, by linarith, by linarith⟩,
      ⟨by linarith, by linarith, by linarith, by linarith⟩,
      ⟨by linarith, by linarith, by linarith, by linarith⟩,
      ⟨by linarith, by linarith, by linarith, by linarith⟩,
      by linarith, by linarith, by linarith, by linarith⟩

lemma afterTouchMove_preserves (r w h a b : ℚ) (hr : 0 ≤ r) (hw : 0 ≤ w) (hh : 0 ≤ h)
    (st : State) (hq : CropInv (mkConfig r w h a b) st.corners) (tx ty : ℚ) :
    CropInv (mkConfig r w h a b) (afterTouchMove (mkConfig r w h a b) st tx ty).corners := by
  unfold afterTouchMove
  by_cases hact : st.move.active = true
  · simp only [hact, if_true]
    exact cropInv_moveCropBox r w h a b hr hw hh st hq tx ty
  · rw [Bool.not_eq_true] at hact
    simp only [hact, Bool.false_eq_true, if_false]
    cases hsel : st.selectedCornerIndex with
    | none => exact hq
    | some i =>
        simp only []
        by_cases hsm : cropBoxIsTooSmall (mkConfig r w h a b) (st.corners.set i ⟨tx, ty⟩) = true
        · simp only [hsm, if_true]
          exact hq
        · rw [Bool.not_eq_true] at hsm
          simp only [hsm, Bool.false_eq_true, if_false]
          have hwr : w + 2 * r - r = w + r := by ring
          have hhr : h + 2 * r - r = h + r := by ring
          rw [mkConfig_radius, mkConfig_ow, mkConfig_oh, hwr, hhr]
          exact cropInv_corner_commit r w h a b hr hw hh st.corners i tx ty hq hsm

lemma step_preserves (r w h a b : ℚ) (hr : 0 ≤ r) (hw : 0 ≤ w) (hh : 0 ≤ h)
    {s s1 : State} (hq : CropInv (mkConfig r w h a b) s.corners)
    (hs : Step (mkConfig r w h a b) s s1) : CropInv (mkConfig r w h a b) s1.corners := by
  cases hs with
  | startBoxDrag t hmv => exact hq
  | startCornerDrag i? => exact hq
  | touchMove tx ty => exact afterTouchMove_preserves r w h a b hr hw hh s hq tx ty
  | touchEnd => exact hq

lemma reachable_preserves (r w h a b : ℚ) (hr : 0 ≤ r) (hw : 0 ≤ w) (hh : 0 ≤ h)
    {s0 s : State} (h0 : CropInv (mkConfig r w h a b) s0.corners)
    (hs : Reachable (mkConfig r w h a b) s0 s) : CropInv (mkConfig r w h a b) s.corners := by
  induction hs with
  | refl => exact h0
  | tail hseg hstep ih => exact step_preserves r w h a b hr hw hh ih hstep

lemma translateClamp_of_strict (r w h a b dx dy : ℚ) (p : Pos)
    (hs : strictlyInside r w h (shiftPos dx dy p)) :
    translateClamp (mkConfig r w h a b) dx dy p = shiftPos dx dy p := by
  obtain ⟨h1, h2, h3, h4⟩ := hs
  simp only [shiftPos] at h1 h2 h3 h4 ⊢
  unfold translateClamp
  rw [mkConfig_radius, mkConfig_ow, mkConfig_oh]
  rw [show w + 2 * r - r = w + r from by ring, show h + 2 * r - r = h + r from by ring]
  rw [clampQ_eq_self _ _ _ (le_of_lt h1) (le_of_lt h2),
    clampQ_eq_self _ _ _ (le_of_lt h3) (le_of_lt h4)]

lemma moveCropBox_strict_commits (r w h a b : ℚ) (st : State) (tx ty : ℚ)
    (hs : ∀ i : Fin 4, strictlyInside r w h
      (shiftPos (tx - st.move.prevTouch.x) (ty - st.move.prevTouch.y) (st.corners.nth i))) :
    (moveCropBox (mkConfig r w h a b) st tx ty).corners =
      Quad.mapPos (shiftPos (tx - st.move.prevTouch.x) (ty - st.move.prevTouch.y))
        st.corners := by
  set dx := tx - st.move.prevTouch.x with hdx
  set dy := ty - st.move.prevTouch.y with hdy
  have h0 := hs 0
  have h1 := hs 1
  have h2 := hs 2
  have h3 := hs 3
  simp only [Quad.nth] at h0 h1 h2 h3
  have t0 := translateClamp_of_strict r w h a b dx dy st.corners.c0 h0
  have t1 := translateClamp_of_strict r w h a b dx dy st.corners.c1 h1
  have t2 := translateClamp_of_strict r w h a b dx dy st.corners.c2 h2
  have t3 := translateClamp_of_strict r w h a b dx dy st.corners.c3 h3
  have n0 := notOnBorder_of_strict r w h _ h0.1 h0.2.1 h0.2.2.1 h0.2.2.2
  have n1 := notOnBorder_of_strict r w h _ h1.1 h1.2.1 h1.2.2.1 h1.2.2.2
  have n2 := notOnBorder_of_strict r w h _ h2.1 h2.2.1 h2.2.2.1 h2.2.2.2
  have n3 := notOnBorder_of_strict r w h _ h3.1 h3.2.1 h3.2.2.1 h3.2.2.2
  unfold moveCropBox
  simp only [← hdx, ← hdy, mkConfig_bps, Quad.mapPos, Quad.toList,
    List.any_cons, List.any_nil, t0, t1, t2, t3, n0, n1, n2, n3,
    Bool.or_false, Bool.or_self, Bool.not_false, if_true]

lemma moveCropBox_border_rejects (r w h a b : ℚ) (hw : 0 ≤ w) (hh : 0 ≤ h)
    (st : State) (tx ty : ℚ)
    (hb : ∃ i : Fin 4, isPointOnBorder
      (shiftPos (tx - st.move.prevTouch.x) (ty - st.move.prevTouch.y) (st.corners.nth i))
      (borderPointsOf r w h) = true) :
    (moveCropBox (mkConfig r w h a b) st tx ty).corners = st.corners := by
  set dx := tx - st.move.prevTouch.x with hdx
  set dy := ty - st.move.prevTouch.y with hdy
  obtain ⟨i, hi⟩ := hb
  have hmem := onBorder_mem r w h hw hh _ hi
  simp only [shiftPos] at hmem
  have htc : translateClamp (mkConfig r w h a b) dx dy (st.corners.nth i) =
      shiftPos dx dy (st.corners.nth i) := by
    unfold translateClamp
    rw [mkConfig_radius, mkConfig_ow, mkConfig_oh]
    rw [show w + 2 * r - r = w + r from by ring, show h + 2 * r - r = h + r from by ring]
    simp only [shiftPos]
    rw [clampQ_eq_self _ _ _ hmem.1 hmem.2.1, clampQ_eq_self _ _ _ hmem.2.2.1 hmem.2.2.2]
  have hanytrue : (Quad.mapPos (translateClamp (mkConfig r w h a b) dx dy)
      st.corners).toList.any
      (fun p => isPointOnBorder p (mkConfig r w h a b).canvasBorderPoints) = true := by
    rw [mkConfig_bps]
    fin_cases i <;>
      simp only [Quad.nth] at htc hi <;>
      simp [Quad.mapPos, Quad.toList, List.any_cons, htc, hi]
  unfold moveCropBox
  simp only [← hdx, ← hdy, hanytrue, Bool.not_true, Bool.false_eq_true, if_false]

/-- C1 (amended): provided the corners established at image load satisfy the
CropBox invariant — all four corners inside the padded bounding region and
the four opposite-corner projections at least the configured minimums — every
state reachable through pointer events keeps satisfying it: corner drags
whose candidate fails the minimum-size check and box drags that touch the
boundary are rejected with the corners unchanged, and committed corner drags
are clamped into the region.  (The load itself does not establish the
invariant; see the counterexample.) -/
theorem crop_box_invariant_reachable (r w h a b : ℚ) (hr : 0 ≤ r) (hw : 0 ≤ w)
    (hh : 0 ≤ h) (s0 s : State) (h0 : CropInv (mkConfig r w h a b) s0.corners)
    (hreach : Reachable (mkConfig r w h a b) s0 s) :
    CropInv (mkConfig r w h a b) s.corners :=
  reachable_preserves r w h a b hr hw hh h0 hreach

theorem crop_box_invariant_reachable_witness :
    CropInv (mkConfig 12 400 300 100 100)
      (afterTouchMove (mkConfig 12 400 300 100 100) exState 200 150).corners :=
  crop_box_invariant_reachable 12 400 300 100 100 (by norm_num) (by norm_num)
    (by norm_num) exState
    (afterTouchMove (mkConfig 12 400 300 100 100) exState 200 150)
    (by norm_num [CropInv, inRegion, mkConfig, exState])
    (Relation.ReflTransGen.single (Step.touchMove exState 200 150))

/-- C1 counterexample: the state reached immediately after an image load does
not in general satisfy the minimum-size part of the invariant.  Loading a
50×50 image into an instance with no dimension options (canvas 50×50) and the
default 100×100 minimum produces the default full-canvas corners
`[(12,12), (62,12), (62,62), (12,62)]`, whose box is 50×50 — below both
minimums — so the claim quantifying over every reachable post-load state is
false. -/
theorem load_without_min_size_check :
    cropBoxIsTooSmall (mkConfig 12 50 50 100 100)
      (quadOfList (loadOnload exFullBare 50 50).corners) = true ∧
    (loadOnload exFullBare 50 50).corners =
      [⟨12, 12⟩, ⟨62, 12⟩, ⟨62, 62⟩, ⟨12, 62⟩] := by
  norm_num [loadOnload, exFullBare, initializeCanvasDimensions, initializeCorners,
    truthyQ, qfloor, quadOfList, cropBoxIsTooSmall, mkConfig]

/-- C2: while a whole-box drag is active, a pointer move whose delta keeps
all four translated corners strictly inside the canvas boundary moves every
corner by exactly that delta, and a delta that lands any translated corner
exactly on a boundary polygon edge (the point-on-segment test) leaves all
four corners at their prior positions. -/
theorem box_drag_all_or_nothing (r w h a b : ℚ) (hw : 0 ≤ w) (hh : 0 ≤ h)
    (st : State) (hact : st.move.active = true) (tx ty : ℚ) :
    ((∀ i : Fin 4, strictlyInside r w h
        (shiftPos (tx - st.move.prevTouch.x) (ty - st.move.prevTouch.y)
          (st.corners.nth i))) →
      ∀ i : Fin 4, (afterTouchMove (mkConfig r w h a b) st tx ty).corners.nth i =
        shiftPos (tx - st.move.prevTouch.x) (ty - st.move.prevTouch.y)
          (st.corners.nth i)) ∧
    ((∃ i : Fin 4, isPointOnBorder
        (shiftPos (tx - st.move.prevTouch.x) (ty - st.move.prevTouch.y)
          (st.corners.nth i))
        (borderPointsOf r w h) = true) →
      (afterTouchMove (mkConfig r w h a b) st tx ty).corners = st.corners) := by
  constructor
  · intro hs i
    unfold afterTouchMove
    rw [if_pos hact]
    rw [moveCropBox_strict_commits r w h a b st tx ty hs]
    fin_cases i <;> simp [Quad.mapPos, Quad.nth]
  · intro hb
    unfold afterTouchMove
    rw [if_pos hact]
    exact moveCropBox_border_rejects r w h a b hw hh st tx ty hb

theorem box_drag_all_or_nothing_witness :
    (afterTouchMove (mkConfig 12 400 300 100 100) exStateDrag 105 103).corners.nth 0 =
      shiftPos (105 - exStateDrag.move.prevTouch.x) (103 - exStateDrag.move.prevTouch.y)
        (exStateDrag.corners.nth 0) :=
  (box_drag_all_or_nothing 12 400 300 100 100 (by norm_num) (by norm_num)
    exStateDrag rfl 105 103).1
    (by intro i; fin_cases i <;> norm_num [strictlyInside, shiftPos, exStateDrag, Quad.nth])
    0

/-- C3: while a single corner is selected, a candidate position whose
replaced four-corner set fails the minimum-size check leaves the whole state
— all four corners and the redraw counter — unchanged, and any pointer move
that changes the state at all had a candidate set passing the minimum-size
check. -/
theorem corner_drag_min_size_guard (cfg : Config) (st : State) (i : Fin 4)
    (tx ty : ℚ) (hact : st.move.active = false)
    (hsel : st.selectedCornerIndex = some i) :
    (cropBoxIsTooSmall cfg (st.corners.set i ⟨tx, ty⟩) = true →
      afterTouchMove cfg st tx ty = st) ∧
    (afterTouchMove cfg st tx ty ≠ st →
      cropBoxIsTooSmall cfg (st.corners.set i ⟨tx, ty⟩) = false) := by
  have key : cropBoxIsTooSmall cfg (st.corners.set i ⟨tx, ty⟩) = true →
      afterTouchMove cfg st tx ty = st := by
    intro hsm
    unfold afterTouchMove
    rw [if_neg (by rw [hact]; exact Bool.false_ne_true), hsel]
    simp only [hsm, if_true]
  refine ⟨key, fun hne => ?_⟩
  cases hcase : cropBoxIsTooSmall cfg (st.corners.set i ⟨tx, ty⟩) with
  | false => rfl
  | true => exact absurd (key hcase) hne

theorem corner_drag_min_size_guard_witness :
    afterTouchMove exCfg exStateCorner 50 12 = exStateCorner :=
  (corner_drag_min_size_guard exCfg exStateCorner 1 50 12 rfl rfl).1
    (by norm_num [cropBoxIsTooSmall, exCfg, mkConfig, exStateCorner, Quad.set])

/-- C4: with only `width` configured the resolved canvas height is
`floor(width * naturalHeight / naturalWidth)`; if `maxHeight` is also set and
that height exceeds it, the height is clamped to `maxHeight` and the width is
recomputed from the image aspect ratio as
`floor(maxHeight * naturalWidth / naturalHeight)`; in particular `width = 400`
with a natural 800×600 image resolves to a 400×300 canvas. -/
theorem width_only_resolution :
    (∀ w nW nH : ℚ, w ≠ 0 →
      initializeCanvasDimensions (some w) none none none nW nH =
        (w, qfloor (w * nH / nW))) ∧
    (∀ w nW nH mh : ℚ, w ≠ 0 → mh ≠ 0 →
      initializeCanvasDimensions (some w) none none (some mh) nW nH =
        (if mh < qfloor (w * nH / nW) then (qfloor (mh * nW / nH), mh)
         else (w, qfloor (w * nH / nW)))) ∧
    initializeCanvasDimensions (some 400) none none none 800 600 = (400, 300) := by
  refine ⟨?_, ?_, ?_⟩
  · intro w nW nH hw
    simp [initializeCanvasDimensions, truthyQ, hw, div_mul_eq_mul_div]
  · intro w nW nH mh hw hmh
    simp [initializeCanvasDimensions, truthyQ, hw, hmh, div_mul_eq_mul_div]
  · norm_num [initializeCanvasDimensions, truthyQ, qfloor]

theorem width_only_resolution_witness :
    initializeCanvasDimensions (some 50) none none none 200 100 =
      (50, qfloor (50 * 100 / 200)) :=
  width_only_resolution.1 50 200 100 (by norm_num)

/-- C5: constructing with both `backdropColor` and `cropBoxColor` present,
or a truthy `width` together with a truthy `maxWidth`, or a truthy `height`
together with a truthy `maxHeight`, fails with a synchronous error and no
instance (the guards run before any element creation); every other option
combination constructs an instance. -/
theorem construction_conflict_rejection (o : ScannerOptions) :
    ((o.hasBackdropColor = true ∧ o.hasCropBoxColor = true) ∨
     (truthyQ o.width? = true ∧ truthyQ o.maxWidth? = true) ∨
     (truthyQ o.height? = true ∧ truthyQ o.maxHeight? = true) →
      ∃ msg, construct o = Except.error msg) ∧
    (¬((o.hasBackdropColor = true ∧ o.hasCropBoxColor = true) ∨
       (truthyQ o.width? = true ∧ truthyQ o.maxWidth? = true) ∨
       (truthyQ o.height? = true ∧ truthyQ o.maxHeight? = true)) →
      ∃ c, construct o = Except.ok c) := by
  by_cases h1 : (o.hasBackdropColor && o.hasCropBoxColor) = true
  · have h1p : o.hasBackdropColor = true ∧ o.hasCropBoxColor = true := by
      simpa using h1
    exact ⟨fun _ => ⟨_, by unfold construct; rw [if_pos h1]⟩,
      fun hn => absurd (Or.inl h1p) hn⟩
  · by_cases h2 : (truthyQ o.width? && truthyQ o.maxWidth?) = true
    · have h2p : truthyQ o.width? = true ∧ truthyQ o.maxWidth? = true := by
        simpa using h2
      exact ⟨fun _ => ⟨_, by unfold construct; rw [if_neg h1, if_pos h2]⟩,
        fun hn => absurd (Or.inr (Or.inl h2p)) hn⟩
    · by_cases h3 : (truthyQ o.height? && truthyQ o.maxHeight?) = true
      · have h3p : truthyQ o.height? = true ∧ truthyQ o.maxHeight? = true := by
          simpa using h3
        exact ⟨fun _ => ⟨_, by unfold construct; rw [if_neg h1, if_neg h2, if_pos h3]⟩,
          fun hn => absurd (Or.inr (Or.inr h3p)) hn⟩
      · refine ⟨fun hc => ?_, fun _ =>
          ⟨_, by unfold construct; rw [if_neg h1, if_neg h2, if_neg h3]⟩⟩
        rcases hc with ⟨ha, hb⟩ | ⟨ha, hb⟩ | ⟨ha, hb⟩
        · exact absurd (by simp [ha, hb] : (o.hasBackdropColor && o.hasCropBoxColor) = true) h1
        · exact absurd (by simp [ha, hb] : (truthyQ o.width? && truthyQ o.maxWidth?) = true) h2
        · exact absurd (by simp [ha, hb] : (truthyQ o.height? && truthyQ o.maxHeight?) = true) h3

theorem construction_conflict_rejection_witness :
    ∃ msg, construct
      { width? := none, height? := none, maxWidth? := none, maxHeight? := none
        hasBackdropColor := true, hasCropBoxColor := true
        cornerRadius? := none, minCropBoxWidth? := none, minCropBoxHeight? := none
        initialCorners? := none } = Except.error msg :=
  (construction_conflict_rejection _).1 (Or.inl ⟨rfl, rfl⟩)

lemma edgeLength_eq (a b : ℝ × ℝ) :
    edgeLength a b = Real.sqrt ((a.1 - b.1) ^ 2 + (a.2 - b.2) ^ 2) := by
  unfold edgeLength toE2
  rw [EuclideanSpace.dist_eq]
  congr 1
  rw [Fin.sum_univ_two]
  simp [Real.dist_eq, sq_abs]

/-- C6: the output rectangle computed by `#applyPerspectiveTransform` has
width equal to the larger of the top-edge and bottom-edge Euclidean lengths
scaled by the device pixel ratio, height equal to the larger of the left-edge
and right-edge lengths scaled likewise, and the destination buffer handed to
the transform lists the four corners `(0,0), (w,0), (w,h), (0,h)` in
clockwise order, matched positionally with the four source points. -/
theorem crop_output_size_euclidean (p0 p1 p2 p3 : ℝ × ℝ) (dpr : ℝ) :
    cvDsize p0 p1 p2 p3 dpr =
      (max (edgeLength p0 p1) (edgeLength p2 p3) * dpr,
       max (edgeLength p1 p2) (edgeLength p3 p0) * dpr) ∧
    ∀ w h : ℝ, pairs2 (dstTriFlat w h) = [(0, 0), (w, 0), (w, h), (0, h)] := by
  constructor
  · unfold cvDsize
    rw [edgeLength_eq, edgeLength_eq, edgeLength_eq, edgeLength_eq]
  · intro w h
    rfl

/-- C7: every supplied percentage-space corner with both coordinates in
[0,100] converts to `(pct/100) * canvasDisplaySize + cornerRadius` per axis
and lands inside the `CanvasBoundary` region; with no supplied corners the
four padded canvas corners are used.  The canvas arguments are the
backing-store sizes `displaySize * dpr`, as left by
`#initializeCanvasDimensions`. -/
theorem initial_corners_conversion (w h dpr r : ℚ) (hdpr : 0 < dpr) (hw : 0 ≤ w)
    (hh : 0 ≤ h) (ics : List Pos)
    (hics : ∀ p ∈ ics, 0 ≤ p.x ∧ p.x ≤ 100 ∧ 0 ≤ p.y ∧ p.y ≤ 100) :
    initializeCorners (w * dpr) (h * dpr) dpr r (some ics) =
      ics.map (fun c => ⟨c.x / 100 * w + r, c.y / 100 * h + r⟩) ∧
    (∀ q ∈ initializeCorners (w * dpr) (h * dpr) dpr r (some ics),
      withinBoundary r w h q) ∧
    initializeCorners (w * dpr) (h * dpr) dpr r none = borderPointsOf r w h := by
  have hd : dpr ≠ 0 := ne_of_gt hdpr
  have hfun : ∀ c : Pos,
      (⟨c.x / 100 * (w * dpr) / dpr + r, c.y / 100 * (h * dpr) / dpr + r⟩ : Pos) =
        ⟨c.x / 100 * w + r, c.y / 100 * h + r⟩ := by
    intro c
    have hx : c.x / 100 * (w * dpr) / dpr = c.x / 100 * w := by
      rw [← mul_assoc, mul_div_cancel_right₀ _ hd]
    have hy : c.y / 100 * (h * dpr) / dpr = c.y / 100 * h := by
      rw [← mul_assoc, mul_div_cancel_right₀ _ hd]
    rw [hx, hy]
  refine ⟨?_, ?_, ?_⟩
  · unfold initializeCorners
    exact List.map_congr_left fun c _ => hfun c
  · intro q hq
    unfold initializeCorners at hq
    obtain ⟨p, hp, rfl⟩ := List.mem_map.mp hq
    obtain ⟨h1, h2, h3, h4⟩ := hics p hp
    rw [hfun p]
    unfold withinBoundary
    dsimp only
    have hx1 : 0 ≤ p.x / 100 * w := mul_nonneg (div_nonneg h1 (by norm_num)) hw
    have hx2 : p.x / 100 * w ≤ w := by
      calc p.x / 100 * w ≤ 1 * w :=
            mul_le_mul_of_nonneg_right ((div_le_one (by norm_num)).mpr h2) hw
        _ = w := one_mul w
    have hy1 : 0 ≤ p.y / 100 * h := mul_nonneg (div_nonneg h3 (by norm_num)) hh
    have hy2 : p.y / 100 * h ≤ h := by
      calc p.y / 100 * h ≤ 1 * h :=
            mul_le_mul_of_nonneg_right ((div_le_one (by norm_num)).mpr h4) hh
        _ = h := one_mul h
    exact ⟨by linarith, by linarith, by linarith, by linarith⟩
  · unfold initializeCorners borderPointsOf
    rw [mul_div_cancel_right₀ w hd, mul_div_cancel_right₀ h hd]

theorem initial_corners_conversion_witness :
    initializeCorners (400 * 2) (300 * 2) 2 12 none = borderPointsOf 12 400 300 :=
  (initial_corners_conversion 400 300 2 12 (by norm_num) (by norm_num) (by norm_num)
    [⟨0, 0⟩, ⟨100, 0⟩, ⟨100, 100⟩, ⟨0, 100⟩]
    (by intro p hp; fin_cases hp <;> norm_num)).2.2

/-- C8 (code bug): `destroy` removes nothing from the listener list.  The
constructor registered six fresh `.bind(this)` copies, but `destroy` passes
the raw method references to `removeEventListener`, and a `(type, callback)`
pair that was never registered matches nothing, so after `destroy` the
listener list is exactly the six registrations made at construction — the
claim requires it to be empty of them. -/
theorem destroy_leaves_listeners_attached :
    destroyRemovals constructorListeners = constructorListeners ∧
    constructorListeners.length = 6 := ⟨rfl, rfl⟩

/-- C9 (code bug): the `onload` body of `loadImg` replaces the canvas
dimensions and the corners but never writes `#move.active` or
`#selectedCornerIndex`, so a reload completing during a drag keeps the
box-drag flag `true` and the selected corner index — the claim requires them
to be reset to `false` and `-1`. -/
theorem reload_keeps_drag_state :
    (loadOnload exFullDrag 800 600).move.active = true ∧
    (loadOnload exFullDrag 800 600).selectedCornerIndex = some 2 ∧
    (loadOnload exFullDrag 800 600).corners ≠ exFullDrag.corners := by
  refine ⟨rfl, rfl, ?_⟩
  norm_num [loadOnload, exFullDrag, initializeCanvasDimensions, initializeCorners,
    truthyQ, qfloor]

/-- C10: the crop-producing operations and the canvas accessor write no
instance field: the crop-box corners, the whole interaction state (drag flag,
previous touch, selected corner) and the canvas dimensions are identical
before and after each of `crop`, `getBlob`, `getFile` and `getCanvas`. -/
theorem public_output_ops_frame (op : PublicOp) (f : Full) :
    (runPublicOp op f).corners = f.corners ∧
    (runPublicOp op f).move = f.move ∧
    (runPublicOp op f).selectedCornerIndex = f.selectedCornerIndex ∧
    (runPublicOp op f).canvasWidth = f.canvasWidth ∧
    (runPublicOp op f).canvasHeight = f.canvasHeight := by
  cases op <;> exact ⟨rfl, rfl, rfl, rfl, rfl⟩
